import Mathlib

/-!
Verification of the azure-mcp server (`src/server.ts` and its report-generating
revision).  JavaScript strings are embedded as `List Char`; the host HTTP layer
(`fetch`), file system, clock and locale formatting are parameters of the
embedded handlers; every other computation is translated directly from the
source.
-/

set_option maxRecDepth 10000

namespace AzMcp

/-- JavaScript strings are modelled as lists of characters. -/
abbrev Str := List Char

/-- Embed a Lean string literal as a character list. -/
def S (s : String) : Str := s.data

/-! ## JSON values and `JSON.stringify(v, null, 2)` -/

/-- JSON values (numbers restricted to the integers that occur in this
program's data). -/
inductive Json where
  | null : Json
  | bool (b : Bool) : Json
  | num (n : Int) : Json
  | str (s : Str) : Json
  | arr (elems : List Json) : Json
  | obj (fields : List (Str × Json)) : Json

/-- Lower-case hexadecimal digit. -/
def hexDigit (n : Nat) : Char :=
  if n < 10 then Char.ofNat (48 + n) else Char.ofNat (87 + n)

/-- One character of ECMAScript `QuoteJSONString` (by code point). -/
def escChar (c : Char) : Str :=
  if c.toNat = 34 then ['\\', '"']
  else if c.toNat = 92 then ['\\', '\\']
  else if c.toNat = 10 then ['\\', 'n']
  else if c.toNat = 13 then ['\\', 'r']
  else if c.toNat = 9 then ['\\', 't']
  else if c.toNat = 8 then ['\\', 'b']
  else if c.toNat = 12 then ['\\', 'f']
  else if c.toNat < 32 then ['\\', 'u', '0', '0', hexDigit (c.toNat / 16), hexDigit (c.toNat % 16)]
  else [c]

/-- `JSON.stringify` applied to a string: quote and escape. -/
def jsQuote (s : Str) : Str := '"' :: (s.map escChar).flatten ++ ['"']

/-- Characters that JSON string quoting leaves unchanged. -/
def escFree (c : Char) : Bool := decide (32 ≤ c.toNat) && !(c.toNat = 34) && !(c.toNat = 92)

/-- Decimal rendering of a natural number (JS template interpolation). -/
def natStr (n : Nat) : Str := (toString n).data

/-- Decimal rendering of an integer (JS template interpolation). -/
def intStr (n : Int) : Str := (toString n).data

/-- Indentation used by `JSON.stringify(v, null, 2)`. -/
def spaces (n : Nat) : Str := List.replicate n ' '

mutual

/-- `JSON.stringify(v, null, 2)` at nesting depth `d`. -/
def sJson : Nat → Json → Str
  | _, Json.null => S "null"
  | _, Json.bool true => S "true"
  | _, Json.bool false => S "false"
  | _, Json.num n => intStr n
  | _, Json.str s => jsQuote s
  | _, Json.arr [] => S "[]"
  | d, Json.arr (x :: xs) =>
      S "[\n" ++ sItems d (x :: xs) ++ S "\n" ++ spaces (2 * d) ++ S "]"
  | _, Json.obj [] => S "\x7b\x7d"
  | d, Json.obj (f :: fs) =>
      S "\x7b\n" ++ sFields d (f :: fs) ++ S "\n" ++ spaces (2 * d) ++ S "\x7d"

/-- Array elements, one per line, comma separated. -/
def sItems : Nat → List Json → Str
  | _, [] => []
  | d, [x] => spaces (2 * (d + 1)) ++ sJson (d + 1) x
  | d, x :: y :: xs =>
      spaces (2 * (d + 1)) ++ sJson (d + 1) x ++ S ",\n" ++ sItems d (y :: xs)

/-- Object members, one per line, comma separated. -/
def sFields : Nat → List (Str × Json) → Str
  | _, [] => []
  | d, [(k, v)] => spaces (2 * (d + 1)) ++ jsQuote k ++ S ": " ++ sJson (d + 1) v
  | d, (k, v) :: f :: fs =>
      spaces (2 * (d + 1)) ++ jsQuote k ++ S ": " ++ sJson (d + 1) v ++ S ",\n" ++ sFields d (f :: fs)

end

/-- `JSON.stringify(v, null, 2)`. -/
def stringify2 (j : Json) : Str := sJson 0 j

/-! ## Substring test (`String.prototype.includes`) -/

/-- Substring test on character lists, as used by `contentType.includes(...)`. -/
def containsSub (pat : Str) : Str → Bool
  | [] => pat.isEmpty
  | c :: rest => pat.isPrefixOf (c :: rest) || containsSub pat rest

/-! ## HTTP layer -/

/-- The observable part of a `fetch` `Response` used by the Azure/Teams tools. -/
structure Resp where
  status : Nat
  bodyText : Str

/-- `Response.ok`: status in the range 200–299. -/
def respOk (r : Resp) : Bool := decide (200 ≤ r.status) && decide (r.status < 300)

/-- Outcome of a `fetch` call: a response, or a rejected promise whose error
stringifies (via the template `${error}`) to the given message. -/
inductive Fetch where
  | resp (r : Resp)
  | thrown (msg : Str)

/-- An MCP tool result: the texts of its `type: "text"` content blocks. -/
structure ToolResult where
  content : List Str

/-- A file write performed through `fs.writeFile`. -/
structure FileWrite where
  path : Str
  data : Str

/-- Text of the first content block of a result. -/
def firstText (t : ToolResult) : Str := t.content.headD []

/-- The `catch` branch shared by the Azure tool handlers:
`Operation failed: ${error}`. -/
def opFailed (e : Str) : ToolResult := ⟨[S "Operation failed: " ++ e]⟩

/-! ## Basic authentication (`Buffer.from(user:pat).toString("base64")`) -/

/-- UTF-8 encoding of one character. -/
def utf8Char (c : Char) : List Nat :=
  let n := c.toNat
  if n < 128 then [n]
  else if n < 2048 then [192 + n / 64, 128 + n % 64]
  else if n < 65536 then [224 + n / 4096, 128 + (n / 64) % 64, 128 + n % 64]
  else [240 + n / 262144, 128 + (n / 4096) % 64, 128 + (n / 64) % 64, 128 + n % 64]

/-- UTF-8 encoding of a string (what `Buffer.from` produces by default). -/
def utf8Bytes (s : Str) : List Nat := (s.map utf8Char).flatten

/-- The base64 alphabet. -/
def b64Char (n : Nat) : Char :=
  if n < 26 then Char.ofNat (65 + n)
  else if n < 52 then Char.ofNat (97 + (n - 26))
  else if n < 62 then Char.ofNat (48 + (n - 52))
  else if n = 62 then '+'
  else '/'

/-- Standard base64 of a byte sequence. -/
def base64 : List Nat → Str
  | [] => []
  | [a] => [b64Char (a / 4), b64Char ((a % 4) * 16), '=', '=']
  | [a, b] => [b64Char (a / 4), b64Char ((a % 4) * 16 + b / 16), b64Char ((b % 16) * 4), '=']
  | a :: b :: c :: rest =>
      [b64Char (a / 4), b64Char ((a % 4) * 16 + b / 16),
       b64Char ((b % 16) * 4 + c / 64), b64Char (c % 64)] ++ base64 rest

/-- `Basic ${Buffer.from(username:pat).toString("base64")}` (server.ts lines
83–85): the Authorization header the Azure tools construct. -/
def basicAuth (user pat : Str) : Str :=
  S "Basic " ++ base64 (utf8Bytes (user ++ S ":" ++ pat))

/-- The Authorization header an Azure tool sends, in the context of a process
environment carrying optional `AZURE_USERNAME` / `AZURE_PASSWORD` values. The
source builds the header from the tool arguments alone and never reads
`process.env`, so the environment parameters are unused. -/
def azureAuthHeaderUsed (argUser argPat : Str)
    (envUser envPass : Option Str) : Str :=
  basicAuth argUser argPat

/-! ## Work items and the HTML report (`getazzureIssuesid`, report revision) -/

/-- The projection of an Azure DevOps work item onto the seven fields the
tools request.  `assignedTo` is the optional `displayName` of
`System.AssignedTo`; `tags` is the optional `System.Tags` string; the dates are
the raw API strings, formatted for display by a host `toLocaleString`
function passed separately. -/
structure WorkItem where
  id : Int
  title : Str
  state : Str
  assignedTo : Option Str
  createdDate : Str
  changedDate : Str
  tags : Option Str

/-- `item.fields["System.AssignedTo"]?.displayName || "Unassigned"`. -/
def assignedRender (it : WorkItem) : Str :=
  match it.assignedTo with
  | some d => if d.isEmpty then S "Unassigned" else d
  | none => S "Unassigned"

/-- `item.fields["System.Tags"] || ""`. -/
def tagsRender (it : WorkItem) : Str := it.tags.getD []

/-- `${item.fields["System.Id"]}`. -/
def idStr (it : WorkItem) : Str := intStr it.id

/-- The report head: everything of the HTML template up to and including the
header row (source lines 155–177 of the report revision). -/
def HEADSTR : Str := S "\n        <html>\n        <head>\n          <title>Azure DevOps Work Item Report</title>\n          <style>\n            body \x7b font-family: sans-serif; \x7d\n            table \x7b border-collapse: collapse; width: 100%; \x7d\n            th, td \x7b border: 1px solid #ddd; padding: 8px; text-align: left; \x7d\n            th \x7b background-color: #f2f2f2; \x7d\n          </style>\n        </head>\n        <body>\n          <h1>Azure DevOps Work Item Report</h1>\n          <table>\n            <tr>\n              <th>ID</th>\n              <th>Title</th>\n              <th>State</th>\n              <th>Assigned To</th>\n              <th>Created Date</th>\n              <th>Changed Date</th>\n              <th>Tags</th>\n            </tr>"

/-- The table row appended for one work item (source lines 179–196); `fmt`
is the host `new Date(·).toLocaleString()` formatting. -/
def rowHtml (fmt : Str → Str) (it : WorkItem) : Str :=
  S "\n            <tr>\n              <td>" ++ idStr it ++
  S "</td>\n              <td>" ++ it.title ++
  S "</td>\n              <td>" ++ it.state ++
  S "</td>\n              <td>" ++ assignedRender it ++
  S "</td>\n              <td>" ++ fmt it.createdDate ++
  S "</td>\n              <td>" ++ fmt it.changedDate ++
  S "</td>\n              <td>" ++ tagsRender it ++
  S "</td>\n            </tr>"

/-- The closing part of the HTML template (source lines 198–201). -/
def TAILSTR : Str := S "\n          </table>\n        </body>\n        </html>"

/-- The HTML report `getazzureIssuesid` generates: head, one row per work
item (appended in a loop), tail. -/
def renderHtml (fmt : Str → Str) (items : List WorkItem) : Str :=
  (items.foldl (fun acc it => acc ++ rowHtml fmt it) HEADSTR) ++ TAILSTR

/-- JSON shape of one fetched work item, as persisted to the snapshot file. -/
def itemJson (it : WorkItem) : Json :=
  Json.obj
    [(S "id", Json.num it.id),
     (S "fields", Json.obj
       ([(S "System.Id", Json.num it.id),
         (S "System.Title", Json.str it.title),
         (S "System.State", Json.str it.state)] ++
        (match it.assignedTo with
         | some d => [(S "System.AssignedTo", Json.obj [(S "displayName", Json.str d)])]
         | none => []) ++
        [(S "System.CreatedDate", Json.str it.createdDate),
         (S "System.ChangedDate", Json.str it.changedDate)] ++
        (match it.tags with
         | some t => [(S "System.Tags", Json.str t)]
         | none => [])))]

/-- `JSON.stringify(workItemsDetails.value, null, 2)`: the snapshot contents. -/
def snapshotStr (items : List WorkItem) : Str :=
  stringify2 (Json.arr (items.map itemJson))

/-- The parsed `workitemsbatch` response body: its `value` array and its
`count` field. -/
structure BatchDetails where
  value : List WorkItem
  count : Nat

/-- The `getazzureIssuesid` tool handler (report revision, lines 82–224).
Parameters: the outcome of the WIQL `fetch`, the ids parsed from its body
(`wiqlResult.workItems.map(item => item.id)`), the outcome of the batch
`fetch`, its parsed body, and the host date formatter.  Returns the MCP
result together with the file writes performed. -/
def getazzureIssuesid (wiqlF : Fetch) (ids : List Int) (batchF : Fetch)
    (details : BatchDetails) (fmt : Str → Str) : ToolResult × List FileWrite :=
  match wiqlF with
  | Fetch.thrown m => (opFailed m, [])
  | Fetch.resp w =>
    if respOk w = false then
      (opFailed (S "Error: Failed to fetch issue IDs: " ++ natStr w.status ++ S " " ++ w.bodyText), [])
    else if ids.isEmpty then
      (⟨[S "No issues found."]⟩, [])
    else
      match batchF with
      | Fetch.thrown m => (opFailed m, [])
      | Fetch.resp b =>
        if respOk b = false then
          (opFailed (S "Error: Failed to fetch issue details: " ++ natStr b.status ++ S " " ++ b.bodyText), [])
        else
          (⟨[S "Successfully fetched " ++ natStr details.count ++
             S " issues. Data saved to src/data/azzureissues.json and HTML report generated at work_item_report.html."]⟩,
           [⟨S "src/data/azzureissues.json", snapshotStr details.value⟩,
            ⟨S "work_item_report.html", renderHtml fmt details.value⟩])

/-- The `getIssuesDetailsById` tool handler (lines 244–300): batch-fetch the
given ids and return the response JSON pretty-printed; no file writes. -/
def getIssuesDetailsById (username pat : Str) (ids : List Int) (batchF : Fetch)
    (detailsJson : Json) : ToolResult × List FileWrite :=
  match batchF with
  | Fetch.thrown m => (opFailed m, [])
  | Fetch.resp b =>
    if respOk b = false then
      (opFailed (S "Error: Failed to fetch issue details: " ++ natStr b.status ++ S " " ++ b.bodyText), [])
    else
      (⟨[stringify2 detailsJson]⟩, [])

/-! ## HTML tokenizing and table extraction (the cheerio-based code of
`postReportToTeams`, lines 320–347) -/

/-- HTML tokens: a markup tag (its contents between `<` and `>`) or a text
run. -/
inductive Tok where
  | tag (t : Str) : Tok
  | text (s : Str) : Tok
deriving DecidableEq

/-- Fuel-driven HTML tokenizer: `<`…`>` spans become tags, maximal runs of
other characters become text nodes.  This is how an HTML parser lexes the
attribute-free markup this program generates and consumes. -/
def tokF : Nat → Str → List Tok
  | 0, _ => []
  | _ + 1, [] => []
  | fuel + 1, c :: rest =>
    if c = '<' then
      Tok.tag (rest.takeWhile (fun d => d != '>')) ::
        tokF fuel ((rest.dropWhile (fun d => d != '>')).drop 1)
    else
      Tok.text ((c :: rest).takeWhile (fun d => d != '<')) ::
        tokF fuel ((c :: rest).dropWhile (fun d => d != '<'))

/-- Tokenize a document (the fuel `s.length` always suffices). -/
def tokenize (s : Str) : List Tok := tokF s.length s

/-- Rest of the token stream after the first opening tag named `name`. -/
def afterTag (name : Str) : List Tok → Option (List Tok)
  | [] => none
  | Tok.tag t :: rest => if t = name then some rest else afterTag name rest
  | Tok.text _ :: rest => afterTag name rest

/-- Split a token stream at the first tag named `cname`: the tokens before
it, and the tokens after it. -/
def upToClose (cname : Str) : List Tok → List Tok × List Tok
  | [] => ([], [])
  | Tok.tag t :: rest =>
      if t = cname then ([], rest)
      else
        let p := upToClose cname rest
        (Tok.tag t :: p.1, p.2)
  | Tok.text s :: rest =>
      let p := upToClose cname rest
      (Tok.text s :: p.1, p.2)

/-- Fuel-driven extraction of all `<name>`…`</name>` element contents, in
document order. -/
def secF (name : Str) : Nat → List Tok → List (List Tok)
  | 0, _ => []
  | fuel + 1, ts =>
    match afterTag name ts with
    | none => []
    | some r =>
      let p := upToClose ('/' :: name) r
      p.1 :: secF name fuel p.2

/-- All `<name>`…`</name>` element contents of a token stream. -/
def sections (name : Str) (ts : List Tok) : List (List Tok) :=
  secF name ts.length ts

/-- cheerio's `.text()`: the concatenated text nodes of an element (before
character-reference decoding, applied below). -/
def textOf (ts : List Tok) : Str :=
  (ts.map fun t => match t with
    | Tok.tag _ => []
    | Tok.text s => s).flatten

/-- Whitespace for `String.prototype.trim`: the full ECMAScript set —
TAB, LF, VT, FF, CR, SP, NBSP, OGHAM SPACE MARK, the U+2000–U+200A spaces,
LS, PS, NARROW NBSP, MMSP, IDEOGRAPHIC SPACE and ZWNBSP. -/
def isWs (c : Char) : Bool :=
  (9 ≤ c.toNat && c.toNat ≤ 13) || c.toNat = 32 || c.toNat = 160 || c.toNat = 0x1680 ||
  (0x2000 ≤ c.toNat && c.toNat ≤ 0x200A) || c.toNat = 0x2028 || c.toNat = 0x2029 ||
  c.toNat = 0x202F || c.toNat = 0x205F || c.toNat = 0x3000 || c.toNat = 0xFEFF

/-- `String.prototype.trim()`. -/
def trim (s : Str) : Str :=
  ((s.dropWhile isWs).reverse.dropWhile isWs).reverse

/-- Decimal digit. -/
def isDigitC (c : Char) : Bool := 48 ≤ c.toNat && c.toNat ≤ 57

/-- Hexadecimal digit. -/
def isHexC (c : Char) : Bool :=
  isDigitC c || (65 ≤ c.toNat && c.toNat ≤ 70) || (97 ≤ c.toNat && c.toNat ≤ 102)

/-- Value of a decimal digit string. -/
def decVal (ds : Str) : Nat := ds.foldl (fun a c => a * 10 + (c.toNat - 48)) 0

/-- Value of a hexadecimal digit string. -/
def hexVal (ds : Str) : Nat :=
  ds.foldl (fun a c =>
    a * 16 + (if c.toNat ≤ 57 then c.toNat - 48
              else if c.toNat ≤ 70 then c.toNat - 55
              else c.toNat - 87)) 0

/-- The character for a decoded code point (U+FFFD for values outside the
Unicode scalar range, as the HTML character-reference algorithm produces). -/
def codeChar (n : Nat) : Char :=
  if n.isValidChar then Char.ofNat n else Char.ofNat 0xFFFD

/-- The named character references this model decodes: the core set.  The
real parse5 tokenizer knows the full HTML named-entity table; the round-trip
theorem below therefore restricts itself to fields without `&`, on which
decoding is the identity for any table. -/
def namedEnts : List (Str × Char) :=
  [(S "amp;", '&'), (S "lt;", '<'), (S "gt;", '>'),
   (S "quot;", '"'), (S "apos;", '\''), (S "nbsp;", Char.ofNat 160)]

/-- Match a named reference (the part after `&`) against a table. -/
def lookupNamed : Str → List (Str × Char) → Option (Str × Str)
  | _, [] => none
  | s, (n, c) :: rest =>
      if n.isPrefixOf s then some ([c], s.drop n.length) else lookupNamed s rest

/-- Match a semicolon-terminated numeric character reference (the part after
`&`): `#` then decimal digits, or `#x`/`#X` then hex digits. -/
def numRef (s : Str) : Option (Str × Str) :=
  match s with
  | '#' :: r =>
    match r with
    | 'x' :: r2 =>
      let ds := r2.takeWhile isHexC
      if ds.isEmpty then none
      else match r2.dropWhile isHexC with
        | ';' :: r3 => some ([codeChar (hexVal ds)], r3)
        | _ => none
    | 'X' :: r2 =>
      let ds := r2.takeWhile isHexC
      if ds.isEmpty then none
      else match r2.dropWhile isHexC with
        | ';' :: r3 => some ([codeChar (hexVal ds)], r3)
        | _ => none
    | _ =>
      let ds := r.takeWhile isDigitC
      if ds.isEmpty then none
      else match r.dropWhile isDigitC with
        | ';' :: r3 => some ([codeChar (decVal ds)], r3)
        | _ => none
  | _ => none

/-- Match a character reference after a `&`: named, then numeric; `none`
leaves the `&` verbatim. -/
def entRef (s : Str) : Option (Str × Str) :=
  match lookupNamed s namedEnts with
  | some r => some r
  | none => numRef s

/-- Fuel-driven character-reference decoding of a text run, as the parse5
tokenizer backing `cheerio.load` performs before `.text()` sees the data. -/
def decF : Nat → Str → Str
  | 0, s => s
  | _ + 1, [] => []
  | fuel + 1, c :: rest =>
    if c = '&' then
      match entRef rest with
      | some (repl, rest') => repl ++ decF fuel rest'
      | none => '&' :: decF fuel rest
    else c :: decF fuel rest

/-- Character-reference decoding (the fuel `s.length` always suffices, since
every step consumes at least one input character). -/
def decodeEntities (s : Str) : Str := decF s.length s

/-- `$(el).text().trim()` for one extracted cell: concatenated text nodes,
character references decoded, then trimmed. -/
def cellText (ts : List Tok) : Str := trim (decodeEntities (textOf ts))

/-- The cheerio-based extraction of `postReportToTeams` (lines 326–347):
headers are the `th` texts of the first `tr`; every later `tr` contributes
the list of its `td` texts.  Cell text is decoded (parse5 character
references) and trimmed. -/
def parseHtmlTable (html : Str) : List Str × List (List Str) :=
  ((sections (S "th") ((sections (S "tr") (tokenize html)).headD [])).map cellText,
   ((sections (S "tr") (tokenize html)).drop 1).map fun tr =>
     (sections (S "td") tr).map cellText)

/-! ## Token-level view of the generated report (proof infrastructure) -/

/-- Serialize one token back to markup. -/
def untokOne : Tok → Str
  | Tok.tag t => '<' :: t ++ ['>']
  | Tok.text s => s

/-- Serialize a token stream back to markup. -/
def untok (ts : List Tok) : Str := (ts.map untokOne).flatten

/-- A token the tokenizer can reproduce: a tag without `>` inside, or a
nonempty text without `<`. -/
def wfTokB : Tok → Bool
  | Tok.tag t => t.all fun c => c != '>'
  | Tok.text s => !s.isEmpty && s.all fun c => c != '<'

/-- Does the stream start with a tag token? -/
def startsTag : List Tok → Bool
  | Tok.tag _ :: _ => true
  | _ => false

/-- Streams on which `tokenize ∘ untok` is the identity (every text token is
followed by a tag token, so adjacent text never merges). -/
def wfToks : List Tok → Bool
  | [] => true
  | Tok.tag t :: rest => wfTokB (Tok.tag t) && wfToks rest
  | Tok.text s :: rest => wfTokB (Tok.text s) && startsTag rest && wfToks rest

/-- Does the stream end with a tag token? -/
def endsTagB : List Tok → Bool
  | [] => false
  | [Tok.tag _] => true
  | [Tok.text _] => false
  | _ :: rest => endsTagB rest

/-- A closed chunk: reproducible and ending (if nonempty) with a tag, so it
concatenates with any further chunk without token merging. -/
def wfc (ts : List Tok) : Bool := wfToks ts && (ts.isEmpty || endsTagB ts)

/-- No opening tag named `name` among the tokens. -/
def noTag (name : Str) (ts : List Tok) : Bool :=
  ts.all fun t =>
    match t with
    | Tok.tag n => decide (n ≠ name)
    | Tok.text _ => true

/-- Text token of an interpolated field: absent when the field is empty. -/
def txtTok (f : Str) : List Tok := if f.isEmpty then [] else [Tok.text f]

/-- Tokens opening one report cell: the indentation text and the `<td>` tag. -/
def cellOpen : List Tok := [Tok.text (S "\n              "), Tok.tag (S "td")]

/-- Tokens of one report cell holding field `f`, followed by `rest`. -/
def cellToks (f : Str) (rest : List Tok) : List Tok :=
  cellOpen ++ txtTok f ++ Tok.tag (S "/td") :: rest

/-- Trailing indentation inside a report row. -/
def rowEndToks : List Tok := [Tok.text (S "\n            ")]

/-- The tokens between `<tr>` and `</tr>` of one rendered report row. -/
def innerRow (fmt : Str → Str) (it : WorkItem) : List Tok :=
  cellToks (idStr it) (cellToks it.title (cellToks it.state (cellToks (assignedRender it)
    (cellToks (fmt it.createdDate) (cellToks (fmt it.changedDate)
      (cellToks (tagsRender it) rowEndToks))))))

/-- All tokens contributed by one rendered report row. -/
def rowToks (fmt : Str → Str) (it : WorkItem) : List Tok :=
  Tok.text (S "\n            ") :: Tok.tag (S "tr") ::
    (innerRow fmt it ++ [Tok.tag (S "/tr")])

/-- Tokens of the report head up to the header row's `<tr>`. -/
def PRET : List Tok :=
  [Tok.text (S "\n        "), Tok.tag (S "html"),
   Tok.text (S "\n        "), Tok.tag (S "head"),
   Tok.text (S "\n          "), Tok.tag (S "title"),
   Tok.text (S "Azure DevOps Work Item Report"), Tok.tag (S "/title"),
   Tok.text (S "\n          "), Tok.tag (S "style"),
   Tok.text (S "\n            body \x7b font-family: sans-serif; \x7d\n            table \x7b border-collapse: collapse; width: 100%; \x7d\n            th, td \x7b border: 1px solid #ddd; padding: 8px; text-align: left; \x7d\n            th \x7b background-color: #f2f2f2; \x7d\n          "),
   Tok.tag (S "/style"),
   Tok.text (S "\n        "), Tok.tag (S "/head"),
   Tok.text (S "\n        "), Tok.tag (S "body"),
   Tok.text (S "\n          "), Tok.tag (S "h1"),
   Tok.text (S "Azure DevOps Work Item Report"), Tok.tag (S "/h1"),
   Tok.text (S "\n          "), Tok.tag (S "table"),
   Tok.text (S "\n            ")]

/-- Tokens between `<tr>` and `</tr>` of the header row. -/
def HDRC : List Tok :=
  [Tok.text (S "\n              "), Tok.tag (S "th"), Tok.text (S "ID"), Tok.tag (S "/th"),
   Tok.text (S "\n              "), Tok.tag (S "th"), Tok.text (S "Title"), Tok.tag (S "/th"),
   Tok.text (S "\n              "), Tok.tag (S "th"), Tok.text (S "State"), Tok.tag (S "/th"),
   Tok.text (S "\n              "), Tok.tag (S "th"), Tok.text (S "Assigned To"), Tok.tag (S "/th"),
   Tok.text (S "\n              "), Tok.tag (S "th"), Tok.text (S "Created Date"), Tok.tag (S "/th"),
   Tok.text (S "\n              "), Tok.tag (S "th"), Tok.text (S "Changed Date"), Tok.tag (S "/th"),
   Tok.text (S "\n              "), Tok.tag (S "th"), Tok.text (S "Tags"), Tok.tag (S "/th"),
   Tok.text (S "\n            ")]

/-- Tokens of the whole report head. -/
def HEADTOKS : List Tok :=
  PRET ++ Tok.tag (S "tr") :: (HDRC ++ [Tok.tag (S "/tr")])

/-- Tokens of the report tail. -/
def TAILTOKS : List Tok :=
  [Tok.text (S "\n          "), Tok.tag (S "/table"),
   Tok.text (S "\n        "), Tok.tag (S "/body"),
   Tok.text (S "\n        "), Tok.tag (S "/html")]

/-- Tokens of the whole rendered report. -/
def docToks (fmt : Str → Str) (items : List WorkItem) : List Tok :=
  HEADTOKS ++ ((items.map (rowToks fmt)).flatten ++ TAILTOKS)

/-- The seven headers of the rendered report. -/
def reportHeaders : List Str :=
  [S "ID", S "Title", S "State", S "Assigned To", S "Created Date", S "Changed Date", S "Tags"]

/-- The rendered cell texts of one work item, in report column order. -/
def renderedFields (fmt : Str → Str) (it : WorkItem) : List Str :=
  [idStr it, it.title, it.state, assignedRender it,
   fmt it.createdDate, fmt it.changedDate, tagsRender it]

/-- A rendered field that survives the HTML round trip verbatim: it holds no
markup (`<`), no character reference or bare ampersand (`&`), and no leading
or trailing JavaScript whitespace. -/
def FieldClean (f : Str) : Prop :=
  (∀ c ∈ f, c ≠ '<') ∧ (∀ c ∈ f, c ≠ '&') ∧ trim f = f

instance (f : Str) : Decidable (FieldClean f) := by
  unfold FieldClean
  infer_instance

/-! ## The Teams Adaptive Card (`postReportToTeams`, lines 349–414) -/

/-- A `TextBlock` card element. -/
structure TextBlockE where
  text : Str
  wrap : Bool
  weight : Option Str
  size : Option Str
  isSubtle : Bool
deriving DecidableEq

/-- A stretch-width column holding text blocks. -/
structure ColumnE where
  width : Str
  items : List TextBlockE
deriving DecidableEq

/-- A body element of the card: a text block or a column set. -/
inductive CardElem where
  | tb (t : TextBlockE) : CardElem
  | columnSet (cols : List ColumnE) : CardElem
deriving DecidableEq

/-- The Adaptive Card content (its `body`). -/
structure AdaptiveCard where
  body : List CardElem
deriving DecidableEq

/-- Header-row column: a bold (markdown `**`-wrapped) wrapping text block. -/
def headerCol (h : Str) : ColumnE :=
  ⟨S "stretch", [⟨S "**" ++ h ++ S "**", true, none, none, false⟩]⟩

/-- Data-row column: a wrapping text block whose text is `cell || "-"`. -/
def dataCol (cell : Str) : ColumnE :=
  ⟨S "stretch", [⟨(if cell.isEmpty then S "-" else cell), true, none, none, false⟩]⟩

/-- The card title block. -/
def titleBlock : CardElem :=
  CardElem.tb ⟨S "Azure DevOps Work Item Report", false, some (S "Bolder"), some (S "Medium"), false⟩

/-- The generation-timestamp subtitle block (`now` is the host
`new Date().toLocaleString()`). -/
def subtitleBlock (now : Str) : CardElem :=
  CardElem.tb ⟨S "Generated on " ++ now, true, none, none, true⟩

/-- Build the Adaptive Card body from the extracted headers and rows:
title, subtitle, one column set of bold header cells, then one column set
per data row. -/
def buildCard (now : Str) (headers : List Str) (rows : List (List Str)) : AdaptiveCard :=
  ⟨titleBlock :: subtitleBlock now ::
   CardElem.columnSet (headers.map headerCol) ::
   rows.map fun row => CardElem.columnSet (row.map dataCol)⟩

/-- The card `postReportToTeams` posts for a given report file content. -/
def teamsCard (now : Str) (html : Str) : AdaptiveCard :=
  buildCard now (parseHtmlTable html).1 (parseHtmlTable html).2

/-- The `postReportToTeams` tool handler (lines 316–448).  `readF` is the
outcome of reading `work_item_report.html`, `now` the host clock rendering,
`postF` the outcome of the webhook `fetch`.  Besides the MCP result it
reports the card payload posted to the webhook, if the post was attempted. -/
def postReportToTeams (readF : Except Str Str) (now : Str) (postF : Fetch) :
    ToolResult × Option AdaptiveCard :=
  match readF with
  | Except.error m => (opFailed m, none)
  | Except.ok html =>
    let card := teamsCard now html
    match postF with
    | Fetch.thrown m => (opFailed m, some card)
    | Fetch.resp r =>
      if respOk r = false then
        (opFailed (S "Error: Failed to post to Teams: " ++ natStr r.status ++ S " " ++ r.bodyText), some card)
      else
        (⟨[S "Report posted to Teams successfully in tabular format."]⟩, some card)

/-! ## The generic `api-request` tool (lines 469–502) -/

/-- The observable parts of a `fetch` response used by `api-request`:
status, `content-type` header (`""` when absent), the body as text, and the
outcome of `response.json()` on that body. -/
structure ApiResp where
  status : Nat
  contentType : Str
  bodyText : Str
  jsonParse : Except Str Json

/-- `Response.ok` for an `api-request` response. -/
def apiRespOk (r : ApiResp) : Bool := decide (200 ≤ r.status) && decide (r.status < 300)

/-- Outcome of the `api-request` `fetch`. -/
inductive ApiFetch where
  | resp (r : ApiResp)
  | thrown (msg : Str)

/-- The `api-request` tool handler: classify the body by `content-type`
(`includes("application/json")` → `response.json()`, otherwise
`response.text()`), then report `Status: …\nResponse: …` with the data
rendered by `JSON.stringify(data, null, 2)`. -/
def apiRequest (f : ApiFetch) : ToolResult :=
  match f with
  | ApiFetch.thrown m => ⟨[S "API request failed: " ++ m]⟩
  | ApiFetch.resp r =>
    if containsSub (S "application/json") r.contentType then
      match r.jsonParse with
      | Except.error m => ⟨[S "API request failed: " ++ m]⟩
      | Except.ok j =>
        ⟨[S "Status: " ++ natStr r.status ++ S "\nResponse: " ++ stringify2 j]⟩
    else
      ⟨[S "Status: " ++ natStr r.status ++ S "\nResponse: " ++ jsQuote r.bodyText]⟩

/-! ## The `get-issues-by-state` prompt (lines 27–66) -/

/-- One snapshot entry as the prompt consumes it: its `fields["System.State"]`
and `fields["System.Title"]`. -/
structure Issue where
  state : Str
  title : Str

/-- The success message: exact-match filter on `System.State`, titles mapped
to `- ` bullets and joined with newlines. -/
def issuesMsg (issues : List Issue) (state : Str) : Str :=
  S "Issues in state \"" ++ state ++ S "\":\n" ++
    List.intercalate (S "\n")
      ((issues.filter fun i => i.state = state).map fun i => S "- " ++ i.title)

/-- The `get-issues-by-state` prompt handler: `readF` is the combined outcome
of reading and JSON-parsing `src/data/azzureissues.json`.  The result is the
single assistant text message returned. -/
def getIssuesByState (readF : Except Str (List Issue)) (state : Str) : ToolResult :=
  match readF with
  | Except.error m => ⟨[S "Operation failed: " ++ m]⟩
  | Except.ok issues => ⟨[issuesMsg issues state]⟩

/-! ## Concrete instances used for witnesses and counterexamples -/

/-- A date formatter for concrete instances (identity rendering). -/
def fmtId : Str → Str := fun s => s

/-- A work item whose rendered fields contain markup: its title injects a
closing and an opening cell tag. -/
def badItem : WorkItem :=
  ⟨1, S "</td><td>X", S "Done", none, S "d1", S "d2", none⟩

/-- A work item whose title is an HTML character reference: the extraction
decodes it to `&`. -/
def entityItem : WorkItem :=
  ⟨2, S "&amp;", S "Done", none, S "d1", S "d2", none⟩

/-- A work item whose title ends in a form feed, which JavaScript's `trim`
(but not a space/LF/TAB/CR-only model of it) removes. -/
def ffItem : WorkItem :=
  ⟨3, 'x' :: [Char.ofNat 12], S "Done", none, S "d1", S "d2", none⟩

/-- A markup-free, ampersand-free, whitespace-trimmed work item. -/
def goodItem : WorkItem :=
  ⟨7, S "Fix login", S "Done", some (S "Jane Roe"), S "2024-01-01", S "2024-01-02", some (S "auth")⟩

/-- A non-2xx `api-request` response with a plain-text body. -/
def apiResp500 : ApiResp := ⟨500, S "text/plain", S "oops", Except.ok Json.null⟩

/-- An `api-request` response whose raw text body is a single tab character. -/
def apiRespTab : ApiResp := ⟨200, S "text/plain", ['\t'], Except.ok Json.null⟩

/-- A minimal three-column report table with one data row. -/
def htmlC4 : Str :=
  S "<table><tr><th>Id</th><th>Title</th><th>State</th></tr><tr><td>1</td><td>Foo</td><td>Done</td></tr></table>"

/-! ## Lemmas: the tokenizer on reproducible token streams -/

theorem takeWhile_cons_pos (p : Char → Bool) (a : Char) (l : List Char) (h : p a = true) :
    (a :: l).takeWhile p = a :: l.takeWhile p := by
  rw [List.takeWhile_cons, if_pos h]

theorem takeWhile_cons_neg (p : Char → Bool) (a : Char) (l : List Char) (h : p a = false) :
    (a :: l).takeWhile p = [] := by
  rw [List.takeWhile_cons, if_neg (by simp [h])]

theorem dropWhile_cons_pos (p : Char → Bool) (a : Char) (l : List Char) (h : p a = true) :
    (a :: l).dropWhile p = l.dropWhile p := by
  rw [List.dropWhile_cons, if_pos h]

theorem dropWhile_cons_neg (p : Char → Bool) (a : Char) (l : List Char) (h : p a = false) :
    (a :: l).dropWhile p = a :: l := by
  rw [List.dropWhile_cons, if_neg (by simp [h])]

theorem takeWhile_append_pos (p : Char → Bool) (l₁ l₂ : List Char)
    (h : ∀ a ∈ l₁, p a = true) : (l₁ ++ l₂).takeWhile p = l₁ ++ l₂.takeWhile p := by
  induction l₁ with
  | nil => simp
  | cons a l ih =>
    rw [List.cons_append, takeWhile_cons_pos p a _ (h a (by simp)),
      ih (fun b hb => h b (by simp [hb]))]
    rfl

theorem dropWhile_append_pos (p : Char → Bool) (l₁ l₂ : List Char)
    (h : ∀ a ∈ l₁, p a = true) : (l₁ ++ l₂).dropWhile p = l₂.dropWhile p := by
  induction l₁ with
  | nil => simp
  | cons a l ih =>
    rw [List.cons_append, dropWhile_cons_pos p a _ (h a (by simp))]
    exact ih (fun b hb => h b (by simp [hb]))

theorem tokF_succ_lt (fuel : Nat) (rest : Str) :
    tokF (fuel + 1) ('<' :: rest) = Tok.tag (rest.takeWhile fun d => d != '>') ::
      tokF fuel ((rest.dropWhile fun d => d != '>').drop 1) := by
  simp only [tokF]
  simp

theorem tokF_succ_ne (fuel : Nat) (c : Char) (rest : Str) (hc : c ≠ '<') :
    tokF (fuel + 1) (c :: rest) = Tok.text ((c :: rest).takeWhile fun d => d != '<') ::
      tokF fuel ((c :: rest).dropWhile fun d => d != '<') := by
  simp only [tokF]
  rw [if_neg hc]

theorem tokF_mono : ∀ (f g : Nat) (s : Str), s.length ≤ f → s.length ≤ g →
    tokF f s = tokF g s := by
  intro f
  induction f with
  | zero =>
    intro g s hf _
    have hs : s = [] := List.eq_nil_of_length_eq_zero (Nat.le_zero.mp hf)
    subst hs
    cases g <;> rfl
  | succ f ih =>
    intro g s hf hg
    cases s with
    | nil => cases g <;> rfl
    | cons c rest =>
      cases g with
      | zero => simp at hg
      | succ g' =>
        have hf' : rest.length ≤ f := by simpa using hf
        have hg' : rest.length ≤ g' := by simpa using hg
        by_cases hc : c = '<'
        · subst hc
          rw [tokF_succ_lt f, tokF_succ_lt g']
          congr 1
          have hd : ((rest.dropWhile fun d => d != '>').drop 1).length ≤ rest.length := by
            have h2 := (List.dropWhile_sublist (l := rest) (fun d => d != '>')).length_le
            rw [List.length_drop]
            omega
          exact ih _ _ (Nat.le_trans hd hf') (Nat.le_trans hd hg')
        · rw [tokF_succ_ne f c rest hc, tokF_succ_ne g' c rest hc]
          congr 1
          have hcb : ((fun d => d != '<') c) = true := by simpa using hc
          have hd : ((c :: rest).dropWhile fun d => d != '<').length ≤ rest.length := by
            rw [dropWhile_cons_pos (fun d => d != '<') c rest hcb]
            exact (List.dropWhile_sublist _).length_le
          exact ih _ _ (Nat.le_trans hd hf') (Nat.le_trans hd hg')

theorem tokenize_cons_lt (rest : Str) :
    tokenize ('<' :: rest) = Tok.tag (rest.takeWhile fun d => d != '>') ::
      tokenize ((rest.dropWhile fun d => d != '>').drop 1) := by
  have hd : ((rest.dropWhile fun d => d != '>').drop 1).length ≤ rest.length := by
    have h2 := (List.dropWhile_sublist (l := rest) (fun d => d != '>')).length_le
    rw [List.length_drop]
    omega
  unfold tokenize
  rw [show ('<' :: rest).length = rest.length + 1 from rfl, tokF_succ_lt]
  congr 1
  exact tokF_mono rest.length _ _ hd (Nat.le_refl _)

theorem tokenize_cons_ne (c : Char) (rest : Str) (hc : c ≠ '<') :
    tokenize (c :: rest) = Tok.text ((c :: rest).takeWhile fun d => d != '<') ::
      tokenize ((c :: rest).dropWhile fun d => d != '<') := by
  have hcb : ((fun d => d != '<') c) = true := by simpa using hc
  have hd : ((c :: rest).dropWhile fun d => d != '<').length ≤ rest.length := by
    rw [dropWhile_cons_pos (fun d => d != '<') c rest hcb]
    exact (List.dropWhile_sublist _).length_le
  unfold tokenize
  rw [show (c :: rest).length = rest.length + 1 from rfl, tokF_succ_ne rest.length c rest hc]
  congr 1
  exact tokF_mono rest.length _ _ hd (Nat.le_refl _)

theorem untok_cons (t : Tok) (ts : List Tok) :
    untok (t :: ts) = untokOne t ++ untok ts := by
  simp [untok]

theorem untok_append (a b : List Tok) : untok (a ++ b) = untok a ++ untok b := by
  simp [untok]

theorem untok_txtTok (f : Str) : untok (txtTok f) = f := by
  unfold txtTok
  by_cases hf : f.isEmpty
  · rw [if_pos hf, List.isEmpty_iff.mp hf]
    rfl
  · rw [if_neg hf]
    simp [untok, untokOne]

/-- Tokenizing the serialization of a reproducible stream, followed by
anything, recovers the stream. -/
theorem tokenize_untok : ∀ (ts : List Tok) (b : Str), wfToks ts = true →
    tokenize (untok ts ++ b) = ts ++ tokenize b := by
  intro ts
  induction ts with
  | nil =>
    intro b _
    simp [untok]
  | cons t rest ih =>
    cases t with
    | tag tg =>
      intro b hwf
      have h1 : wfTokB (Tok.tag tg) = true ∧ wfToks rest = true := by
        simpa [wfToks, Bool.and_eq_true] using hwf
      have htg : ∀ a ∈ tg, ((fun d => d != '>') a) = true := by
        intro a ha
        have := h1.1
        simp only [wfTokB, List.all_eq_true] at this
        exact this a ha
      have hshape : untok (Tok.tag tg :: rest) ++ b =
          '<' :: (tg ++ '>' :: (untok rest ++ b)) := by
        rw [untok_cons]
        simp [untokOne, List.append_assoc]
      rw [hshape, tokenize_cons_lt]
      have htake : (tg ++ '>' :: (untok rest ++ b)).takeWhile (fun d => d != '>') = tg := by
        rw [takeWhile_append_pos (fun d => d != '>') tg _ htg,
          takeWhile_cons_neg (fun d => d != '>') '>' _ (by simp)]
        simp
      have hdrop : ((tg ++ '>' :: (untok rest ++ b)).dropWhile (fun d => d != '>')).drop 1 =
          untok rest ++ b := by
        rw [dropWhile_append_pos (fun d => d != '>') tg _ htg,
          dropWhile_cons_neg (fun d => d != '>') '>' _ (by simp)]
        simp
      rw [htake, hdrop, ih b h1.2]
      simp
    | text sx =>
      intro b hwf
      have h1 : wfTokB (Tok.text sx) = true ∧ startsTag rest = true ∧ wfToks rest = true := by
        simpa [wfToks, Bool.and_eq_true, and_assoc] using hwf
      have hne : sx.isEmpty = false := by
        have := h1.1
        simp only [wfTokB, Bool.and_eq_true, Bool.not_eq_true'] at this
        exact this.1
      have hfree : ∀ a ∈ sx, ((fun d => d != '<') a) = true := by
        intro a ha
        have := h1.1
        simp only [wfTokB, Bool.and_eq_true, List.all_eq_true] at this
        exact this.2 a ha
      obtain ⟨tg, rest', hrest⟩ : ∃ tg rest', rest = Tok.tag tg :: rest' := by
        cases rest with
        | nil => simp [startsTag] at h1
        | cons r rest' =>
          cases r with
          | tag tg => exact ⟨tg, rest', rfl⟩
          | text s => simp [startsTag] at h1
      cases sx with
      | nil => simp at hne
      | cons c sx' =>
        have hc : c ≠ '<' := by
          have := hfree c (by simp)
          simpa using this
        have hshape : untok (Tok.text (c :: sx') :: rest) ++ b =
            c :: (sx' ++ (untok rest ++ b)) := by
          rw [untok_cons]
          simp [untokOne, List.append_assoc]
        have hstart : untok rest ++ b = '<' :: (tg ++ ['>'] ++ (untok rest' ++ b)) := by
          rw [hrest, untok_cons]
          simp [untokOne, List.append_assoc]
        rw [hshape, tokenize_cons_ne c _ hc]
        have hfree' : ∀ a ∈ sx', ((fun d => d != '<') a) = true := by
          intro a ha
          exact hfree a (by simp [ha])
        have htake : (c :: (sx' ++ (untok rest ++ b))).takeWhile (fun d => d != '<') =
            c :: sx' := by
          rw [takeWhile_cons_pos (fun d => d != '<') c _ (by simpa using hc),
            takeWhile_append_pos (fun d => d != '<') sx' _ hfree', hstart,
            takeWhile_cons_neg (fun d => d != '<') '<' _ (by simp)]
          simp
        have hdrop : (c :: (sx' ++ (untok rest ++ b))).dropWhile (fun d => d != '<') =
            untok rest ++ b := by
          rw [dropWhile_cons_pos (fun d => d != '<') c _ (by simpa using hc),
            dropWhile_append_pos (fun d => d != '<') sx' _ hfree', hstart,
            dropWhile_cons_neg (fun d => d != '<') '<' _ (by simp)]
        rw [htake, hdrop, ih b h1.2.2]
        simp

/-! ## Lemmas: element extraction on token streams -/

theorem afterTag_some_length (name : Str) :
    ∀ (ts r : List Tok), afterTag name ts = some r → r.length < ts.length := by
  intro ts
  induction ts with
  | nil => intro r h; simp [afterTag] at h
  | cons t rest ih =>
    intro r h
    cases t with
    | tag n =>
      by_cases hn : n = name
      · rw [afterTag, if_pos hn] at h
        cases h
        simp
      · rw [afterTag, if_neg hn] at h
        exact Nat.lt_trans (ih r h) (by simp)
    | text s =>
      rw [afterTag] at h
      exact Nat.lt_trans (ih r h) (by simp)

theorem upToClose_snd_le (cname : Str) :
    ∀ (ts : List Tok), ((upToClose cname ts).2).length ≤ ts.length := by
  intro ts
  induction ts with
  | nil => simp [upToClose]
  | cons t rest ih =>
    cases t with
    | tag n =>
      by_cases hn : n = cname
      · rw [upToClose, if_pos hn]
        simp
      · rw [upToClose, if_neg hn]
        exact Nat.le_trans ih (by simp)
    | text s =>
      rw [upToClose]
      exact Nat.le_trans ih (by simp)

theorem secF_mono (name : Str) : ∀ (f g : Nat) (ts : List Tok),
    ts.length ≤ f → ts.length ≤ g → secF name f ts = secF name g ts := by
  intro f
  induction f with
  | zero =>
    intro g ts hf _
    have hts : ts = [] := List.eq_nil_of_length_eq_zero (Nat.le_zero.mp hf)
    subst hts
    cases g with
    | zero => rfl
    | succ g' => simp [secF, afterTag]
  | succ f ih =>
    intro g ts hf hg
    cases g with
    | zero =>
      have hts : ts = [] := List.eq_nil_of_length_eq_zero (Nat.le_zero.mp hg)
      subst hts
      simp [secF, afterTag]
    | succ g' =>
      cases hat : afterTag name ts with
      | none => simp [secF, hat]
      | some r =>
        simp only [secF, hat]
        congr 1
        have hr : r.length < ts.length := afterTag_some_length name ts r hat
        have h2 : ((upToClose ('/' :: name) r).2).length ≤ r.length :=
          upToClose_snd_le ('/' :: name) r
        exact ih g' _ (by omega) (by omega)

theorem sections_eq_nil (name : Str) (ts : List Tok)
    (hat : afterTag name ts = none) : sections name ts = [] := by
  unfold sections
  cases hn : ts.length with
  | zero => rfl
  | succ n => simp [secF, hat]

theorem sections_step (name : Str) (ts r c r₂ : List Tok)
    (hat : afterTag name ts = some r)
    (hup : upToClose ('/' :: name) r = (c, r₂)) :
    sections name ts = c :: sections name r₂ := by
  have hr : r.length < ts.length := afterTag_some_length name ts r hat
  have h2 : r₂.length ≤ r.length := by
    have := upToClose_snd_le ('/' :: name) r
    rw [hup] at this
    exact this
  unfold sections
  cases hn : ts.length with
  | zero =>
    have hts : ts = [] := List.eq_nil_of_length_eq_zero hn
    subst hts
    simp [afterTag] at hat
  | succ n =>
    simp only [secF, hat, hup]
    congr 1
    rw [hn] at hr
    exact secF_mono name n r₂.length r₂ (by omega) (Nat.le_refl _)

theorem afterTag_append_noTag (name : Str) (a : List Tok)
    (h : noTag name a = true) (ts : List Tok) :
    afterTag name (a ++ ts) = afterTag name ts := by
  induction a with
  | nil => rfl
  | cons t a' ih =>
    have h2 : noTag name a' = true := by
      simp only [noTag, List.all_cons, Bool.and_eq_true] at h
      exact h.2
    cases t with
    | tag n =>
      have hn : n ≠ name := by
        simp only [noTag, List.all_cons, Bool.and_eq_true, decide_eq_true_eq] at h
        exact h.1
      rw [List.cons_append, afterTag, if_neg hn]
      exact ih h2
    | text s =>
      rw [List.cons_append, afterTag]
      exact ih h2

theorem afterTag_none_noTag (name : Str) (a : List Tok) (h : noTag name a = true) :
    afterTag name a = none := by
  have := afterTag_append_noTag name a h []
  simpa using this

theorem upToClose_append_noTag (cname : Str) (c : List Tok)
    (h : noTag cname c = true) (r : List Tok) :
    upToClose cname (c ++ Tok.tag cname :: r) = (c, r) := by
  induction c with
  | nil =>
    rw [List.nil_append, upToClose, if_pos rfl]
  | cons t c' ih =>
    have h2 : noTag cname c' = true := by
      simp only [noTag, List.all_cons, Bool.and_eq_true] at h
      exact h.2
    cases t with
    | tag n =>
      have hn : n ≠ cname := by
        simp only [noTag, List.all_cons, Bool.and_eq_true, decide_eq_true_eq] at h
        exact h.1
      rw [List.cons_append, upToClose, if_neg hn, ih h2]
    | text s =>
      rw [List.cons_append, upToClose, ih h2]

theorem noTag_txtTok (name f : Str) : noTag name (txtTok f) = true := by
  unfold txtTok
  split <;> simp [noTag]

theorem noTag_append (name : Str) (a b : List Tok) :
    noTag name (a ++ b) = (noTag name a && noTag name b) := by
  simp [noTag, List.all_append]

/-! ## Lemmas: parsing the rendered report -/

theorem sections_td_cell (f : Str) (rest : List Tok) :
    sections (S "td") (cellToks f rest) = txtTok f :: sections (S "td") rest := by
  have hslash : ('/' :: S "td") = S "/td" := by decide
  apply sections_step (S "td") _ (txtTok f ++ Tok.tag (S "/td") :: rest) (txtTok f) rest
  · show afterTag (S "td") (Tok.text (S "\n              ") :: Tok.tag (S "td") ::
      (txtTok f ++ Tok.tag (S "/td") :: rest)) = _
    simp only [afterTag]
    simp
  · rw [hslash]
    exact upToClose_append_noTag (S "/td") (txtTok f) (noTag_txtTok _ _) rest

theorem sections_td_end : sections (S "td") rowEndToks = [] :=
  sections_eq_nil _ _ (by decide)

theorem cells_innerRow (fmt : Str → Str) (it : WorkItem) :
    sections (S "td") (innerRow fmt it) =
      [txtTok (idStr it), txtTok it.title, txtTok it.state, txtTok (assignedRender it),
       txtTok (fmt it.createdDate), txtTok (fmt it.changedDate), txtTok (tagsRender it)] := by
  unfold innerRow
  rw [sections_td_cell, sections_td_cell, sections_td_cell, sections_td_cell,
    sections_td_cell, sections_td_cell, sections_td_cell, sections_td_end]

theorem noTag_cellToks (n f : Str) (rest : List Tok)
    (h1 : S "td" ≠ n) (h2 : S "/td" ≠ n) :
    noTag n (cellToks f rest) = noTag n rest := by
  have hshape : cellToks f rest =
      [Tok.text (S "\n              "), Tok.tag (S "td")] ++
        (txtTok f ++ ([Tok.tag (S "/td")] ++ rest)) := by
    simp [cellToks, cellOpen]
  rw [hshape, noTag_append, noTag_append, noTag_append, noTag_txtTok]
  have ha : noTag n [Tok.text (S "\n              "), Tok.tag (S "td")] = true := by
    simp [noTag, h1]
  have hb : noTag n [Tok.tag (S "/td")] = true := by
    simp [noTag, h2]
  rw [ha, hb]
  simp

theorem noTag_slashtr_innerRow (fmt : Str → Str) (it : WorkItem) :
    noTag (S "/tr") (innerRow fmt it) = true := by
  unfold innerRow
  rw [noTag_cellToks _ _ _ (by decide) (by decide),
    noTag_cellToks _ _ _ (by decide) (by decide),
    noTag_cellToks _ _ _ (by decide) (by decide),
    noTag_cellToks _ _ _ (by decide) (by decide),
    noTag_cellToks _ _ _ (by decide) (by decide),
    noTag_cellToks _ _ _ (by decide) (by decide),
    noTag_cellToks _ _ _ (by decide) (by decide)]
  decide

theorem sections_tr_row (fmt : Str → Str) (it : WorkItem) (rest : List Tok) :
    sections (S "tr") (rowToks fmt it ++ rest) =
      innerRow fmt it :: sections (S "tr") rest := by
  have hslash : ('/' :: S "tr") = S "/tr" := by decide
  apply sections_step (S "tr") _ (innerRow fmt it ++ Tok.tag (S "/tr") :: rest)
    (innerRow fmt it) rest
  · show afterTag (S "tr") ((Tok.text (S "\n            ") :: Tok.tag (S "tr") ::
      (innerRow fmt it ++ [Tok.tag (S "/tr")])) ++ rest) = _
    rw [List.cons_append, afterTag, List.cons_append, afterTag, if_pos rfl]
    simp [List.append_assoc]
  · rw [hslash]
    exact upToClose_append_noTag (S "/tr") (innerRow fmt it)
      (noTag_slashtr_innerRow fmt it) rest

theorem sections_tr_head (X : List Tok) :
    sections (S "tr") (HEADTOKS ++ X) = HDRC :: sections (S "tr") X := by
  have hslash : ('/' :: S "tr") = S "/tr" := by decide
  apply sections_step (S "tr") _ (HDRC ++ Tok.tag (S "/tr") :: X) HDRC X
  · show afterTag (S "tr") ((PRET ++ Tok.tag (S "tr") :: (HDRC ++ [Tok.tag (S "/tr")])) ++ X) = _
    rw [List.append_assoc, afterTag_append_noTag (S "tr") PRET (by decide), List.cons_append,
      afterTag, if_pos rfl]
    simp [List.append_assoc]
  · rw [hslash]
    exact upToClose_append_noTag (S "/tr") HDRC (by decide) X

theorem sections_tr_mid (fmt : Str → Str) : ∀ (items : List WorkItem),
    sections (S "tr") ((items.map (rowToks fmt)).flatten ++ TAILTOKS) =
      items.map (innerRow fmt) := by
  intro items
  induction items with
  | nil =>
    simp only [List.map_nil, List.flatten_nil, List.nil_append]
    exact sections_eq_nil _ _ (by decide)
  | cons it its ih =>
    simp only [List.map_cons, List.flatten_cons, List.append_assoc]
    rw [sections_tr_row, ih]

theorem sections_tr_doc (fmt : Str → Str) (items : List WorkItem) :
    sections (S "tr") (docToks fmt items) = HDRC :: items.map (innerRow fmt) := by
  unfold docToks
  rw [sections_tr_head, sections_tr_mid]

/-! ## Lemmas: the rendered report as a token stream -/

theorem untok_cellToks (f : Str) (rest : List Tok) :
    untok (cellToks f rest) =
      S "\n              <td>" ++ (f ++ (S "</td>" ++ untok rest)) := by
  have h1 : untok cellOpen = S "\n              <td>" := by decide
  have h2 : untokOne (Tok.tag (S "/td")) = S "</td>" := by decide
  unfold cellToks
  rw [untok_append, untok_append, untok_cons, untok_txtTok, h1, h2]
  simp [List.append_assoc]

theorem untok_rowEndToks : untok rowEndToks = S "\n            " := by decide

theorem rowHtml_eq_untok (fmt : Str → Str) (it : WorkItem) :
    rowHtml fmt it = untok (rowToks fmt it) := by
  have h1 : untokOne (Tok.text (S "\n            ")) = S "\n            " := rfl
  have h2 : untokOne (Tok.tag (S "tr")) = S "<tr>" := by decide
  have h3 : untok [Tok.tag (S "/tr")] = S "</tr>" := by decide
  have hL1 : S "\n            <tr>\n              <td>" =
      S "\n            " ++ (S "<tr>" ++ S "\n              <td>") := by decide
  have hL2 : S "</td>\n              <td>" = S "</td>" ++ S "\n              <td>" := by decide
  have hL3 : S "</td>\n            </tr>" =
      S "</td>" ++ (S "\n            " ++ S "</tr>") := by decide
  unfold rowToks innerRow
  rw [untok_cons, untok_cons, untok_append, h1, h2, h3,
    untok_cellToks, untok_cellToks, untok_cellToks, untok_cellToks,
    untok_cellToks, untok_cellToks, untok_cellToks, untok_rowEndToks]
  unfold rowHtml
  rw [hL1, hL2, hL3]
  simp [List.append_assoc]

theorem headstr_eq : HEADSTR = untok HEADTOKS := by decide

theorem tailstr_eq : TAILSTR = untok TAILTOKS := by decide

theorem foldl_append_acc (g : WorkItem → Str) : ∀ (l : List WorkItem) (acc : Str),
    l.foldl (fun a x => a ++ g x) acc = acc ++ (l.map g).flatten := by
  intro l
  induction l with
  | nil => intro acc; simp
  | cons x xs ih =>
    intro acc
    rw [List.foldl_cons, ih, List.map_cons, List.flatten_cons]
    simp [List.append_assoc]

theorem untok_flatten_rows (fmt : Str → Str) : ∀ (items : List WorkItem),
    (items.map (rowHtml fmt)).flatten = untok ((items.map (rowToks fmt)).flatten) := by
  intro items
  induction items with
  | nil => rfl
  | cons it its ih =>
    simp only [List.map_cons, List.flatten_cons]
    rw [untok_append, rowHtml_eq_untok fmt it, ih]

theorem renderHtml_eq_untok (fmt : Str → Str) (items : List WorkItem) :
    renderHtml fmt items = untok (docToks fmt items) := by
  unfold renderHtml docToks
  rw [foldl_append_acc, untok_append, untok_append, ← headstr_eq, ← tailstr_eq,
    untok_flatten_rows]
  simp [List.append_assoc]

/-! ## Lemmas: well-formedness of the report's token stream -/

theorem endsTagB_cons_cons (x y : Tok) (L : List Tok) :
    endsTagB (x :: y :: L) = endsTagB (y :: L) := by
  cases x <;> rfl

theorem endsTagB_append (a b : List Tok) (hb : b ≠ []) :
    endsTagB (a ++ b) = endsTagB b := by
  induction a with
  | nil => rfl
  | cons x a' ih =>
    cases hab : a' ++ b with
    | nil =>
      rcases List.append_eq_nil.mp hab with ⟨-, h2⟩
      exact absurd h2 hb
    | cons y L =>
      rw [List.cons_append, hab, endsTagB_cons_cons, ← hab, ih]

theorem wfToks_append (a b : List Tok) (ha : wfToks a = true) (hb : wfToks b = true)
    (hend : a = [] ∨ endsTagB a = true) : wfToks (a ++ b) = true := by
  induction a with
  | nil => simpa
  | cons t a' ih =>
    cases t with
    | tag tg =>
      have h1 : wfTokB (Tok.tag tg) = true ∧ wfToks a' = true := by
        simpa [wfToks, Bool.and_eq_true] using ha
      have hend' : a' = [] ∨ endsTagB a' = true := by
        cases a' with
        | nil => exact Or.inl rfl
        | cons y L =>
          right
          rcases hend with h0 | h0
          · simp at h0
          · rw [endsTagB_cons_cons] at h0
            exact h0
      rw [List.cons_append]
      simp only [wfToks, Bool.and_eq_true]
      exact ⟨h1.1, ih h1.2 hend'⟩
    | text sx =>
      have h1 : wfTokB (Tok.text sx) = true ∧ startsTag a' = true ∧ wfToks a' = true := by
        simpa [wfToks, Bool.and_eq_true, and_assoc] using ha
      obtain ⟨tg, rest', hrest⟩ : ∃ tg rest', a' = Tok.tag tg :: rest' := by
        cases a' with
        | nil => simp [startsTag] at h1
        | cons r rest' =>
          cases r with
          | tag tg => exact ⟨tg, rest', rfl⟩
          | text s => simp [startsTag] at h1
      have hend' : a' = [] ∨ endsTagB a' = true := by
        right
        rcases hend with h0 | h0
        · simp at h0
        · rw [hrest] at h0 ⊢
          rw [show (Tok.text sx :: Tok.tag tg :: rest') = (Tok.text sx :: Tok.tag tg :: rest') from rfl] at h0
          rw [endsTagB_cons_cons] at h0
          exact h0
      rw [List.cons_append]
      simp only [wfToks, Bool.and_eq_true]
      refine ⟨⟨h1.1, ?_⟩, ih h1.2.2 hend'⟩
      rw [hrest, List.cons_append]
      rfl

theorem wfc_append (a b : List Tok) (ha : wfc a = true) (hb : wfc b = true) :
    wfc (a ++ b) = true := by
  have ha' : wfToks a = true ∧ (a.isEmpty || endsTagB a) = true := by
    simpa [wfc, Bool.and_eq_true] using ha
  have hb' : wfToks b = true ∧ (b.isEmpty || endsTagB b) = true := by
    simpa [wfc, Bool.and_eq_true] using hb
  by_cases hbn : b = []
  · subst hbn
    simpa using ha
  · have hend : a = [] ∨ endsTagB a = true := by
      have h0 : a.isEmpty = true ∨ endsTagB a = true := by simpa using ha'.2
      rcases h0 with h | h
      · exact Or.inl (List.isEmpty_iff.mp h)
      · exact Or.inr h
    have hwf : wfToks (a ++ b) = true := wfToks_append a b ha'.1 hb'.1 hend
    have hendb : endsTagB b = true := by
      have h0 : b.isEmpty = true ∨ endsTagB b = true := by simpa using hb'.2
      rcases h0 with h | h
      · exact absurd (List.isEmpty_iff.mp h) hbn
      · exact h
    have hend2 : endsTagB (a ++ b) = true := by
      rw [endsTagB_append a b hbn]
      exact hendb
    simp [wfc, hwf, hend2]

theorem cellToks_append (f : Str) (r x : List Tok) :
    cellToks f r ++ x = cellToks f (r ++ x) := by
  simp [cellToks, List.append_assoc]

theorem wfc_cellToks (f : Str) (rest : List Tok) (hf : ∀ c ∈ f, c ≠ '<')
    (hr : wfc rest = true) : wfc (cellToks f rest) = true := by
  have h1 : wfc cellOpen = true := by decide
  have h2 : wfc (txtTok f ++ [Tok.tag (S "/td")]) = true := by
    by_cases hf0 : f.isEmpty
    · simp only [txtTok, if_pos hf0]
      decide
    · have hall : f.all (fun c => c != '<') = true := by
        rw [List.all_eq_true]
        intro c hc
        simpa using hf c hc
      simp only [txtTok, if_neg hf0]
      have h4 : endsTagB [Tok.text f, Tok.tag (S "/td")] = true := by
        rw [endsTagB_cons_cons]
        decide
      have h5 : wfToks [Tok.text f, Tok.tag (S "/td")] = true := by
        simp only [wfToks, Bool.and_eq_true]
        refine ⟨⟨?_, by decide⟩, by decide⟩
        simp only [wfTokB, Bool.and_eq_true]
        exact ⟨by simpa using hf0, hall⟩
      show wfc [Tok.text f, Tok.tag (S "/td")] = true
      simp [wfc, h5, h4]
  have hshape : cellToks f rest = cellOpen ++ ((txtTok f ++ [Tok.tag (S "/td")]) ++ rest) := by
    simp [cellToks, List.append_assoc]
  rw [hshape]
  exact wfc_append _ _ h1 (wfc_append _ _ h2 hr)

theorem wfc_rowToks (fmt : Str → Str) (it : WorkItem)
    (hf : ∀ ff ∈ renderedFields fmt it, ∀ c ∈ ff, c ≠ '<') :
    wfc (rowToks fmt it) = true := by
  have hstart : wfc [Tok.text (S "\n            "), Tok.tag (S "tr")] = true := by decide
  have hendt : wfc (rowEndToks ++ [Tok.tag (S "/tr")]) = true := by decide
  have hinner : wfc (innerRow fmt it ++ [Tok.tag (S "/tr")]) = true := by
    unfold innerRow
    rw [cellToks_append, cellToks_append, cellToks_append, cellToks_append,
      cellToks_append, cellToks_append, cellToks_append]
    apply wfc_cellToks _ _ (hf _ (by simp [renderedFields]))
    apply wfc_cellToks _ _ (hf _ (by simp [renderedFields]))
    apply wfc_cellToks _ _ (hf _ (by simp [renderedFields]))
    apply wfc_cellToks _ _ (hf _ (by simp [renderedFields]))
    apply wfc_cellToks _ _ (hf _ (by simp [renderedFields]))
    apply wfc_cellToks _ _ (hf _ (by simp [renderedFields]))
    apply wfc_cellToks _ _ (hf _ (by simp [renderedFields]))
    exact hendt
  have hshape : rowToks fmt it =
      [Tok.text (S "\n            "), Tok.tag (S "tr")] ++
        (innerRow fmt it ++ [Tok.tag (S "/tr")]) := by
    simp [rowToks]
  rw [hshape]
  exact wfc_append _ _ hstart hinner

theorem wfc_docToks (fmt : Str → Str) (items : List WorkItem)
    (hf : ∀ it ∈ items, ∀ ff ∈ renderedFields fmt it, ∀ c ∈ ff, c ≠ '<') :
    wfc (docToks fmt items) = true := by
  have hhead : wfc HEADTOKS = true := by decide
  have htail : wfc TAILTOKS = true := by decide
  have hmid : ∀ (l : List WorkItem),
      (∀ it ∈ l, ∀ ff ∈ renderedFields fmt it, ∀ c ∈ ff, c ≠ '<') →
      wfc ((l.map (rowToks fmt)).flatten ++ TAILTOKS) = true := by
    intro l
    induction l with
    | nil => intro _; simpa using htail
    | cons it its ih =>
      intro hl
      simp only [List.map_cons, List.flatten_cons, List.append_assoc]
      apply wfc_append
      · exact wfc_rowToks fmt it (hl it (by simp))
      · exact ih (fun x hx => hl x (by simp [hx]))
  unfold docToks
  exact wfc_append _ _ hhead (hmid items hf)

theorem tokenize_renderHtml (fmt : Str → Str) (items : List WorkItem)
    (hf : ∀ it ∈ items, ∀ ff ∈ renderedFields fmt it, ∀ c ∈ ff, c ≠ '<') :
    tokenize (renderHtml fmt items) = docToks fmt items := by
  rw [renderHtml_eq_untok]
  have hw : wfc (docToks fmt items) = true := wfc_docToks fmt items hf
  have hwf : wfToks (docToks fmt items) = true := by
    have h0 := hw
    simp only [wfc, Bool.and_eq_true] at h0
    exact h0.1
  have h1 := tokenize_untok (docToks fmt items) [] hwf
  have hnil : tokenize ([] : Str) = [] := rfl
  rw [hnil, List.append_nil, List.append_nil] at h1
  exact h1

theorem decF_no_amp : ∀ (fuel : Nat) (s : Str), (∀ c ∈ s, c ≠ '&') →
    decF fuel s = s := by
  intro fuel
  induction fuel with
  | zero => intro s _; rfl
  | succ fuel ih =>
    intro s hs
    cases s with
    | nil => rfl
    | cons c rest =>
      have hc : c ≠ '&' := hs c (by simp)
      simp only [decF]
      rw [if_neg hc, ih rest (fun d hd => hs d (by simp [hd]))]

theorem decodeEntities_no_amp (s : Str) (h : ∀ c ∈ s, c ≠ '&') :
    decodeEntities s = s :=
  decF_no_amp s.length s h

theorem cellText_txtTok (f : Str) (hamp : ∀ c ∈ f, c ≠ '&') (h : trim f = f) :
    cellText (txtTok f) = f := by
  unfold txtTok
  by_cases hf : f.isEmpty
  · rw [if_pos hf, List.isEmpty_iff.mp hf]
    rfl
  · rw [if_neg hf]
    show trim (decodeEntities (textOf [Tok.text f])) = f
    have h1 : textOf [Tok.text f] = f := by simp [textOf]
    rw [h1, decodeEntities_no_amp f hamp, h]

/-! ## Lemmas: substring occurrence and JSON quoting -/

theorem isPrefixOf_self_append (p b : Str) : p.isPrefixOf (p ++ b) = true := by
  induction p with
  | nil => simp [List.isPrefixOf]
  | cons a as ih =>
    show List.isPrefixOf (a :: as) (a :: (as ++ b)) = true
    simp [List.isPrefixOf, ih]

theorem containsSub_parts (a pat b : Str) : ∀ (s : Str), s = a ++ (pat ++ b) →
    containsSub pat s = true := by
  induction a with
  | nil =>
    intro s h
    simp only [List.nil_append] at h
    subst h
    cases h2 : pat ++ b with
    | nil =>
      have hp : pat = [] := (List.append_eq_nil.mp h2).1
      simp [containsSub, hp]
    | cons c rest =>
      show (pat.isPrefixOf (c :: rest) || containsSub pat rest) = true
      rw [← h2, isPrefixOf_self_append]
      simp
  | cons x a' ih =>
    intro s h
    subst h
    show (pat.isPrefixOf (x :: (a' ++ (pat ++ b))) || containsSub pat (a' ++ (pat ++ b))) = true
    rw [ih _ rfl]
    simp

theorem escChar_escFree (c : Char) (hc : escFree c = true) : escChar c = [c] := by
  have h1 : 32 ≤ c.toNat ∧ ¬(c.toNat = 34) ∧ ¬(c.toNat = 92) := by
    simpa [escFree, Bool.and_eq_true, and_assoc] using hc
  unfold escChar
  rw [if_neg h1.2.1, if_neg h1.2.2, if_neg (by omega), if_neg (by omega), if_neg (by omega),
    if_neg (by omega), if_neg (by omega), if_neg (by omega)]

theorem jsQuote_escFree (s : Str) (h : s.all escFree = true) :
    jsQuote s = '"' :: (s ++ ['"']) := by
  unfold jsQuote
  have : (s.map escChar).flatten = s := by
    induction s with
    | nil => rfl
    | cons c cs ih =>
      have h2 : escFree c = true ∧ cs.all escFree = true := by
        simpa [List.all_cons, Bool.and_eq_true] using h
      rw [List.map_cons, List.flatten_cons, escChar_escFree c h2.1, ih h2.2]
      rfl
  rw [this]
  simp

/-! ## Claim theorems -/

/-- C1 (amended): for every work-item array whose rendered cell texts are
markup-free (no `<`), ampersand-free (no `&`, so no character reference to
decode) and free of leading/trailing JavaScript whitespace, parsing the
report rendered by `getazzureIssuesid` with the cheerio-based extraction of
`postReportToTeams` reproduces exactly the seven report headers and one row
per item holding the rendered field values (id, title, state, assignee
display name or "Unassigned", the two formatted dates, tags). -/
theorem c1_render_parse_roundtrip (fmt : Str → Str) (items : List WorkItem)
    (h : ∀ it ∈ items, ∀ f ∈ renderedFields fmt it, FieldClean f) :
    parseHtmlTable (renderHtml fmt items) =
      (reportHeaders, items.map (renderedFields fmt)) := by
  have hlt : ∀ it ∈ items, ∀ f ∈ renderedFields fmt it, ∀ c ∈ f, c ≠ '<' :=
    fun it hi f hfm => (h it hi f hfm).1
  unfold parseHtmlTable
  rw [tokenize_renderHtml fmt items hlt, sections_tr_doc]
  have hh : (sections (S "th") HDRC).map cellText = reportHeaders := by decide
  have hr : ∀ it ∈ items,
      (sections (S "td") (innerRow fmt it)).map cellText = renderedFields fmt it := by
    intro it hi
    rw [cells_innerRow]
    have h1 := (h it hi (idStr it) (by simp [renderedFields])).2
    have h2 := (h it hi it.title (by simp [renderedFields])).2
    have h3 := (h it hi it.state (by simp [renderedFields])).2
    have h4 := (h it hi (assignedRender it) (by simp [renderedFields])).2
    have h5 := (h it hi (fmt it.createdDate) (by simp [renderedFields])).2
    have h6 := (h it hi (fmt it.changedDate) (by simp [renderedFields])).2
    have h7 := (h it hi (tagsRender it) (by simp [renderedFields])).2
    simp only [List.map_cons, List.map_nil]
    rw [cellText_txtTok _ h1.1 h1.2, cellText_txtTok _ h2.1 h2.2,
      cellText_txtTok _ h3.1 h3.2, cellText_txtTok _ h4.1 h4.2,
      cellText_txtTok _ h5.1 h5.2, cellText_txtTok _ h6.1 h6.2,
      cellText_txtTok _ h7.1 h7.2]
    rfl
  simp only [List.headD_cons, List.drop_succ_cons, List.drop_zero]
  rw [hh, List.map_map]
  have : items.map ((fun tr => (sections (S "td") tr).map cellText) ∘ innerRow fmt) =
      items.map (renderedFields fmt) :=
    List.map_congr_left (fun it hi => hr it hi)
  rw [this]

/-- C1 counterexample: the parse of the rendered report does not reproduce
the rendered fields for a title containing HTML markup (`</td><td>X` becomes
extra cells), for a title that is a character reference (`&amp;` decodes to
`&`), or for a title with a trailing form feed (JavaScript `trim` strips
it). -/
theorem c1_counterexample :
    parseHtmlTable (renderHtml fmtId [badItem]) ≠
      (reportHeaders, [renderedFields fmtId badItem]) ∧
    parseHtmlTable (renderHtml fmtId [entityItem]) ≠
      (reportHeaders, [renderedFields fmtId entityItem]) ∧
    parseHtmlTable (renderHtml fmtId [ffItem]) ≠
      (reportHeaders, [renderedFields fmtId ffItem]) := by
  refine ⟨by decide, by decide, by decide⟩

/-- C1 witness: a concrete markup-free item satisfies the hypotheses and the
round trip. -/
theorem c1_witness :
    (∀ it ∈ [goodItem], ∀ f ∈ renderedFields fmtId it, FieldClean f) ∧
    parseHtmlTable (renderHtml fmtId [goodItem]) =
      (reportHeaders, [goodItem].map (renderedFields fmtId)) :=
  ⟨by decide, c1_render_parse_roundtrip fmtId [goodItem] (by decide)⟩

/-- C2 (amended): for every non-2xx upstream response, every tool's returned
text contains the numeric status code; the Azure and Teams tools return it
inside an `Operation failed:` failure text, while `api-request` (which
performs no ok-check) reports it in its normal `Status:` line whenever it
produces one (non-JSON content type, or a JSON body that parses). -/
theorem c2_nonok_status_in_text :
    (∀ (w : Resp) (ids : List Int) (batchF : Fetch) (details : BatchDetails) (fmt : Str → Str),
       respOk w = false →
       containsSub (natStr w.status)
         (firstText (getazzureIssuesid (Fetch.resp w) ids batchF details fmt).1) = true ∧
       containsSub (S "failed")
         (firstText (getazzureIssuesid (Fetch.resp w) ids batchF details fmt).1) = true) ∧
    (∀ (w b : Resp) (ids : List Int) (details : BatchDetails) (fmt : Str → Str),
       respOk w = true → ids ≠ [] → respOk b = false →
       containsSub (natStr b.status)
         (firstText (getazzureIssuesid (Fetch.resp w) ids (Fetch.resp b) details fmt).1) = true ∧
       containsSub (S "failed")
         (firstText (getazzureIssuesid (Fetch.resp w) ids (Fetch.resp b) details fmt).1) = true) ∧
    (∀ (u p : Str) (ids : List Int) (b : Resp) (dj : Json),
       respOk b = false →
       containsSub (natStr b.status)
         (firstText (getIssuesDetailsById u p ids (Fetch.resp b) dj).1) = true ∧
       containsSub (S "failed")
         (firstText (getIssuesDetailsById u p ids (Fetch.resp b) dj).1) = true) ∧
    (∀ (html now : Str) (r : Resp),
       respOk r = false →
       containsSub (natStr r.status)
         (firstText (postReportToTeams (Except.ok html) now (Fetch.resp r)).1) = true ∧
       containsSub (S "failed")
         (firstText (postReportToTeams (Except.ok html) now (Fetch.resp r)).1) = true) ∧
    (∀ r : ApiResp,
       apiRespOk r = false →
       (containsSub (S "application/json") r.contentType = false ∨
        ∃ j, r.jsonParse = Except.ok j) →
       containsSub (natStr r.status) (firstText (apiRequest (ApiFetch.resp r))) = true) := by
  refine ⟨?_, ?_, ?_, ?_, ?_⟩
  · intro w ids batchF details fmt hw
    have hx : firstText (getazzureIssuesid (Fetch.resp w) ids batchF details fmt).1 =
        (S "Operation failed: " ++ S "Error: Failed to fetch issue IDs: ") ++
          (natStr w.status ++ (S " " ++ w.bodyText)) := by
      simp [getazzureIssuesid, hw, opFailed, firstText, List.append_assoc]
    constructor
    · exact containsSub_parts _ _ _ _ hx
    · refine containsSub_parts (S "Operation ") _
        (S ": Error: Failed to fetch issue IDs: " ++ (natStr w.status ++ (S " " ++ w.bodyText))) _ ?_
      rw [hx, show (S "Operation failed: " ++ S "Error: Failed to fetch issue IDs: ") =
        S "Operation " ++ (S "failed" ++ S ": Error: Failed to fetch issue IDs: ") from by decide]
      simp [List.append_assoc]
  · intro w b ids details fmt hw hids hb
    have hx : firstText (getazzureIssuesid (Fetch.resp w) ids (Fetch.resp b) details fmt).1 =
        (S "Operation failed: " ++ S "Error: Failed to fetch issue details: ") ++
          (natStr b.status ++ (S " " ++ b.bodyText)) := by
      have hids' : ids.isEmpty = false := by
        cases ids with
        | nil => exact absurd rfl hids
        | cons a l => rfl
      simp [getazzureIssuesid, hw, hids', hb, opFailed, firstText, List.append_assoc]
    constructor
    · exact containsSub_parts _ _ _ _ hx
    · refine containsSub_parts (S "Operation ") _
        (S ": Error: Failed to fetch issue details: " ++ (natStr b.status ++ (S " " ++ b.bodyText))) _ ?_
      rw [hx, show (S "Operation failed: " ++ S "Error: Failed to fetch issue details: ") =
        S "Operation " ++ (S "failed" ++ S ": Error: Failed to fetch issue details: ") from by decide]
      simp [List.append_assoc]
  · intro u p ids b dj hb
    have hx : firstText (getIssuesDetailsById u p ids (Fetch.resp b) dj).1 =
        (S "Operation failed: " ++ S "Error: Failed to fetch issue details: ") ++
          (natStr b.status ++ (S " " ++ b.bodyText)) := by
      simp [getIssuesDetailsById, hb, opFailed, firstText, List.append_assoc]
    constructor
    · exact containsSub_parts _ _ _ _ hx
    · refine containsSub_parts (S "Operation ") _
        (S ": Error: Failed to fetch issue details: " ++ (natStr b.status ++ (S " " ++ b.bodyText))) _ ?_
      rw [hx, show (S "Operation failed: " ++ S "Error: Failed to fetch issue details: ") =
        S "Operation " ++ (S "failed" ++ S ": Error: Failed to fetch issue details: ") from by decide]
      simp [List.append_assoc]
  · intro html now r hr
    have hx : firstText (postReportToTeams (Except.ok html) now (Fetch.resp r)).1 =
        (S "Operation failed: " ++ S "Error: Failed to post to Teams: ") ++
          (natStr r.status ++ (S " " ++ r.bodyText)) := by
      simp [postReportToTeams, hr, opFailed, firstText, List.append_assoc]
    constructor
    · exact containsSub_parts _ _ _ _ hx
    · refine containsSub_parts (S "Operation ") _
        (S ": Error: Failed to post to Teams: " ++ (natStr r.status ++ (S " " ++ r.bodyText))) _ ?_
      rw [hx, show (S "Operation failed: " ++ S "Error: Failed to post to Teams: ") =
        S "Operation " ++ (S "failed" ++ S ": Error: Failed to post to Teams: ") from by decide]
      simp [List.append_assoc]
  · intro r _ hproc
    by_cases hct : containsSub (S "application/json") r.contentType = true
    · rcases hproc with hct' | ⟨j, hj⟩
      · rw [hct] at hct'
        cases hct'
      · have hx : firstText (apiRequest (ApiFetch.resp r)) =
            S "Status: " ++ (natStr r.status ++ (S "\nResponse: " ++ stringify2 j)) := by
          simp [apiRequest, hct, hj, firstText, List.append_assoc]
        exact containsSub_parts (S "Status: ") _ (S "\nResponse: " ++ stringify2 j) _ hx
    · have hct0 : containsSub (S "application/json") r.contentType = false := by
        simpa using hct
      have hx : firstText (apiRequest (ApiFetch.resp r)) =
          S "Status: " ++ (natStr r.status ++ (S "\nResponse: " ++ jsQuote r.bodyText)) := by
        simp [apiRequest, hct0, firstText, List.append_assoc]
      exact containsSub_parts (S "Status: ") _ (S "\nResponse: " ++ jsQuote r.bodyText) _ hx

/-- C2 counterexample: a 500 response to `api-request` yields the tool's
normal `Status:` text, which is not a failure text (it does not even contain
the word "failed"), so not every tool converts a non-2xx response into a
failure text. -/
theorem c2_counterexample :
    apiRespOk apiResp500 = false ∧
    containsSub (S "failed") (firstText (apiRequest (ApiFetch.resp apiResp500))) = false := by
  decide

/-- C2 witness: a concrete 404 WIQL response. -/
theorem c2_witness :
    containsSub (natStr 404)
      (firstText (getazzureIssuesid (Fetch.resp ⟨404, S "nf"⟩) [] (Fetch.thrown [])
        ⟨[], 0⟩ fmtId).1) = true :=
  (c2_nonok_status_in_text.1 ⟨404, S "nf"⟩ [] (Fetch.thrown []) ⟨[], 0⟩ fmtId rfl).1

/-- C3 (amended): `api-request` parses the body as JSON exactly when the
response's content type contains `application/json`, and otherwise takes the
raw text, whose `JSON.stringify` quotation appears in the `Response:` field;
the raw text itself appears verbatim whenever it contains no character that
JSON string quoting escapes. -/
theorem c3_content_classification :
    (∀ (r : ApiResp) (j : Json),
       containsSub (S "application/json") r.contentType = true →
       r.jsonParse = Except.ok j →
       apiRequest (ApiFetch.resp r) =
         ⟨[S "Status: " ++ natStr r.status ++ S "\nResponse: " ++ stringify2 j]⟩) ∧
    (∀ r : ApiResp,
       containsSub (S "application/json") r.contentType = false →
       apiRequest (ApiFetch.resp r) =
         ⟨[S "Status: " ++ natStr r.status ++ S "\nResponse: " ++ jsQuote r.bodyText]⟩ ∧
       (r.bodyText.all escFree = true →
        containsSub r.bodyText (firstText (apiRequest (ApiFetch.resp r))) = true)) := by
  constructor
  · intro r j hct hj
    simp [apiRequest, hct, hj]
  · intro r hct
    constructor
    · simp [apiRequest, hct]
    · intro hfree
      have hx : firstText (apiRequest (ApiFetch.resp r)) =
          (S "Status: " ++ (natStr r.status ++ (S "\nResponse: " ++ ['"']))) ++
            (r.bodyText ++ ['"']) := by
        simp [apiRequest, hct, firstText, jsQuote_escFree r.bodyText hfree, List.append_assoc]
      exact containsSub_parts _ _ _ _ hx

/-- C3 counterexample: a tab-character body is returned through JSON
quotation as `"\t"`, so the raw text does not appear verbatim in the
`Response:` field. -/
theorem c3_counterexample :
    containsSub (S "application/json") apiRespTab.contentType = false ∧
    containsSub apiRespTab.bodyText
      (firstText (apiRequest (ApiFetch.resp apiRespTab))) = false := by
  decide

/-- C3 witness: a plain-text 200 response with body `hello`. -/
theorem c3_witness :
    apiRequest (ApiFetch.resp ⟨200, S "text/plain", S "hello", Except.ok Json.null⟩) =
      ⟨[S "Status: " ++ natStr 200 ++ S "\nResponse: " ++ jsQuote (S "hello")]⟩ ∧
    containsSub (S "hello")
      (firstText (apiRequest (ApiFetch.resp
        ⟨200, S "text/plain", S "hello", Except.ok Json.null⟩))) = true := by
  have h := c3_content_classification.2
    ⟨200, S "text/plain", S "hello", Except.ok Json.null⟩ (by decide)
  exact ⟨h.1, h.2 (by decide)⟩

/-- C4: the Adaptive Card `postReportToTeams` builds for a report whose
extracted table has headers `hs` and data rows `rs` is a title block, a
timestamp subtitle block, one column set of bold header cells, then one
column set per data row of plain cells defaulting to `-`; in particular a
table with header row `[Id, Title, State]` and one data row `[1, Foo, Done]`
gives one header column set of three bold blocks and one data column set of
three plain blocks. -/
theorem c4_card_structure :
    (∀ (now html : Str) (hs : List Str) (rs : List (List Str)),
       parseHtmlTable html = (hs, rs) →
       (teamsCard now html).body =
         titleBlock :: subtitleBlock now ::
           CardElem.columnSet (hs.map headerCol) ::
           rs.map (fun row => CardElem.columnSet (row.map dataCol))) ∧
    (∀ now : Str,
       (teamsCard now htmlC4).body =
         [titleBlock, subtitleBlock now,
          CardElem.columnSet [headerCol (S "Id"), headerCol (S "Title"), headerCol (S "State")],
          CardElem.columnSet [dataCol (S "1"), dataCol (S "Foo"), dataCol (S "Done")]]) := by
  have hgen : ∀ (now html : Str) (hs : List Str) (rs : List (List Str)),
      parseHtmlTable html = (hs, rs) →
      (teamsCard now html).body =
        titleBlock :: subtitleBlock now ::
          CardElem.columnSet (hs.map headerCol) ::
          rs.map (fun row => CardElem.columnSet (row.map dataCol)) := by
    intro now html hs rs hp
    unfold teamsCard buildCard
    rw [hp]
  refine ⟨hgen, ?_⟩
  intro now
  have hp : parseHtmlTable htmlC4 =
      ([S "Id", S "Title", S "State"], [[S "1", S "Foo", S "Done"]]) := by decide
  rw [hgen now htmlC4 _ _ hp]
  simp

/-- C4 witness: the concrete three-column table. -/
theorem c4_witness :
    (teamsCard (S "1/1/2025, 9:00:00 AM") htmlC4).body =
      titleBlock :: subtitleBlock (S "1/1/2025, 9:00:00 AM") ::
        CardElem.columnSet ([S "Id", S "Title", S "State"].map headerCol) ::
        [[S "1", S "Foo", S "Done"]].map (fun row => CardElem.columnSet (row.map dataCol)) :=
  c4_card_structure.1 (S "1/1/2025, 9:00:00 AM") htmlC4 _ _ (by decide)

/-- C5: the `get-issues-by-state` prompt returns the titles of exactly the
snapshot items whose `System.State` equals the given state (exact string
match), joined as a `- `-bulleted listing; in particular against a snapshot
with states To Do / Doing / Done, querying `Done` lists exactly the title of
the Done item. -/
theorem c5_filter_by_state :
    (∀ (issues : List Issue) (st : Str),
       getIssuesByState (Except.ok issues) st =
         ⟨[S "Issues in state \"" ++ st ++ S "\":\n" ++
            List.intercalate (S "\n")
              ((issues.filter fun i => i.state = st).map fun i => S "- " ++ i.title)]⟩) ∧
    (∀ t1 t2 t3 : Str,
       getIssuesByState (Except.ok [⟨S "To Do", t1⟩, ⟨S "Doing", t2⟩, ⟨S "Done", t3⟩])
           (S "Done") =
         ⟨[S "Issues in state \"Done\":\n- " ++ t3]⟩) := by
  constructor
  · intro issues st
    rfl
  · intro t1 t2 t3
    have e1 : decide (S "To Do" = S "Done") = false := by decide
    have e2 : decide (S "Doing" = S "Done") = false := by decide
    have e3 : decide (S "Done" = S "Done") = true := by decide
    have hfil : ([⟨S "To Do", t1⟩, ⟨S "Doing", t2⟩, ⟨S "Done", t3⟩] : List Issue).filter
        (fun i => i.state = S "Done") = [⟨S "Done", t3⟩] := by
      simp only [List.filter_cons, e1, e2, e3]
      simp [List.filter]
    show ToolResult.mk [issuesMsg [⟨S "To Do", t1⟩, ⟨S "Doing", t2⟩, ⟨S "Done", t3⟩] (S "Done")] = _
    unfold issuesMsg
    rw [hfil]
    simp only [List.map_cons, List.map_nil]
    have hjoin : List.intercalate (S "\n") [S "- " ++ t3] = S "- " ++ t3 := by
      simp [List.intercalate]
    rw [hjoin,
      show S "Issues in state \"Done\":\n- " =
        S "Issues in state \"" ++ (S "Done" ++ (S "\":\n" ++ S "- ")) from by decide]
    simp [List.append_assoc]

/-- C6: every handler is total on all modelled failure outcomes (thrown
fetch, non-2xx response, failed file read or JSON parse) and always returns
exactly one user-visible text block — no error escapes a handler. -/
theorem c6_errors_contained :
    (∀ (readF : Except Str (List Issue)) (st : Str),
       (getIssuesByState readF st).content.length = 1) ∧
    (∀ (wiqlF : Fetch) (ids : List Int) (batchF : Fetch) (details : BatchDetails)
       (fmt : Str → Str),
       (getazzureIssuesid wiqlF ids batchF details fmt).1.content.length = 1) ∧
    (∀ (u p : Str) (ids : List Int) (batchF : Fetch) (dj : Json),
       (getIssuesDetailsById u p ids batchF dj).1.content.length = 1) ∧
    (∀ (readF : Except Str Str) (now : Str) (postF : Fetch),
       (postReportToTeams readF now postF).1.content.length = 1) ∧
    (∀ f : ApiFetch, (apiRequest f).content.length = 1) := by
  refine ⟨?_, ?_, ?_, ?_, ?_⟩
  · intro readF st
    cases readF <;> rfl
  · intro wiqlF ids batchF details fmt
    cases wiqlF with
    | thrown m => rfl
    | resp w =>
      by_cases h1 : respOk w = false
      · simp [getazzureIssuesid, h1, opFailed]
      · by_cases h2 : ids.isEmpty = true
        · simp [getazzureIssuesid, h1, h2]
        · cases batchF with
          | thrown m => simp [getazzureIssuesid, h1, h2, opFailed]
          | resp b =>
            by_cases h3 : respOk b = false
            · simp [getazzureIssuesid, h1, h2, h3, opFailed]
            · simp [getazzureIssuesid, h1, h2, h3]
  · intro u p ids batchF dj
    cases batchF with
    | thrown m => rfl
    | resp b =>
      by_cases h : respOk b = false
      · simp [getIssuesDetailsById, h, opFailed]
      · simp [getIssuesDetailsById, h]
  · intro readF now postF
    cases readF with
    | error m => rfl
    | ok html =>
      cases postF with
      | thrown m => rfl
      | resp r =>
        by_cases h : respOk r = false
        · simp [postReportToTeams, h, opFailed]
        · simp [postReportToTeams, h]
  · intro f
    cases f with
    | thrown m => rfl
    | resp r =>
      by_cases h : containsSub (S "application/json") r.contentType = true
      · cases hj : r.jsonParse with
        | error m => simp [apiRequest, h, hj]
        | ok j => simp [apiRequest, h, hj]
      · simp [apiRequest, h]

/-- C7 (amended): the Azure tools always build their Basic-Auth header from
the required `username`/`pat` tool arguments; the process environment
(`AZURE_USERNAME`/`AZURE_PASSWORD`) is never read, so there is no
environment fallback. -/
theorem c7_no_env_fallback :
    ∀ (u p : Str) (e1 e2 e1' e2' : Option Str),
      azureAuthHeaderUsed u p e1 e2 = basicAuth u p ∧
      azureAuthHeaderUsed u p e1 e2 = azureAuthHeaderUsed u p e1' e2' := by
  intro u p e1 e2 e1' e2'
  exact ⟨rfl, rfl⟩

/-- C7 counterexample: with empty credential arguments and environment
credentials set, the header sent is built from the empty arguments, not from
the environment values the claim says would be used. -/
theorem c7_counterexample :
    azureAuthHeaderUsed [] [] (some (S "alice")) (some (S "s3cret")) ≠
      basicAuth (S "alice") (S "s3cret") := by
  decide

/-- C8: `getIssuesDetailsById` performs no file writes on any outcome, so
the snapshot file is left unchanged. -/
theorem c8_no_writes :
    ∀ (u p : Str) (ids : List Int) (batchF : Fetch) (dj : Json),
      (getIssuesDetailsById u p ids batchF dj).2 = [] := by
  intro u p ids batchF dj
  cases batchF with
  | thrown m => rfl
  | resp b =>
    by_cases h : respOk b = false
    · simp only [getIssuesDetailsById]
      rw [if_pos h]
    · simp only [getIssuesDetailsById]
      rw [if_neg h]

/-- C9: when the WIQL request succeeds but yields no work-item ids,
`getazzureIssuesid` returns exactly the text `No issues found.` and performs
no file writes, whatever the (skipped) batch outcome would have been. -/
theorem c9_empty_early_return :
    ∀ (w : Resp) (ids : List Int) (batchF : Fetch) (details : BatchDetails)
      (fmt : Str → Str),
      respOk w = true → ids = [] →
      getazzureIssuesid (Fetch.resp w) ids batchF details fmt =
        (⟨[S "No issues found."]⟩, []) := by
  intro w ids batchF details fmt hok hids
  subst hids
  simp only [getazzureIssuesid]
  rw [if_neg (by simp [hok])]
  simp

/-- C9 witness. -/
theorem c9_witness :
    getazzureIssuesid (Fetch.resp ⟨200, []⟩) [] (Fetch.thrown []) ⟨[], 0⟩ fmtId =
      (⟨[S "No issues found."]⟩, []) :=
  c9_empty_early_return ⟨200, []⟩ [] (Fetch.thrown []) ⟨[], 0⟩ fmtId rfl rfl

/-- C10: whenever the WIQL request or the work-item batch request fails —
by rejecting (thrown) or by returning non-2xx — `getazzureIssuesid` performs
no file writes (both ok-checks precede both `fs.writeFile` calls) and
returns an `Operation failed:` text. -/
theorem c10_failure_no_writes :
    (∀ (m : Str) (ids : List Int) (batchF : Fetch) (details : BatchDetails)
       (fmt : Str → Str),
       getazzureIssuesid (Fetch.thrown m) ids batchF details fmt = (opFailed m, [])) ∧
    (∀ (w : Resp) (ids : List Int) (batchF : Fetch) (details : BatchDetails)
       (fmt : Str → Str),
       respOk w = false →
       getazzureIssuesid (Fetch.resp w) ids batchF details fmt =
         (opFailed (S "Error: Failed to fetch issue IDs: " ++ natStr w.status ++
            S " " ++ w.bodyText), [])) ∧
    (∀ (w : Resp) (ids : List Int) (m : Str) (details : BatchDetails) (fmt : Str → Str),
       respOk w = true → ids ≠ [] →
       getazzureIssuesid (Fetch.resp w) ids (Fetch.thrown m) details fmt =
         (opFailed m, [])) ∧
    (∀ (w b : Resp) (ids : List Int) (details : BatchDetails) (fmt : Str → Str),
       respOk w = true → ids ≠ [] → respOk b = false →
       getazzureIssuesid (Fetch.resp w) ids (Fetch.resp b) details fmt =
         (opFailed (S "Error: Failed to fetch issue details: " ++ natStr b.status ++
            S " " ++ b.bodyText), [])) := by
  refine ⟨?_, ?_, ?_, ?_⟩
  · intro m ids batchF details fmt
    rfl
  · intro w ids batchF details fmt hw
    simp only [getazzureIssuesid]
    rw [if_pos hw]
  · intro w ids m details fmt hw hids
    have hids' : ¬(ids.isEmpty = true) := by
      cases ids with
      | nil => exact absurd rfl hids
      | cons a l => simp
    simp only [getazzureIssuesid]
    rw [if_neg (by simp [hw]), if_neg hids']
  · intro w b ids details fmt hw hids hb
    have hids' : ¬(ids.isEmpty = true) := by
      cases ids with
      | nil => exact absurd rfl hids
      | cons a l => simp
    simp only [getazzureIssuesid]
    rw [if_neg (by simp [hw]), if_neg hids', if_pos hb]

/-- C10 witness: a thrown batch request after a successful WIQL query. -/
theorem c10_witness :
    getazzureIssuesid (Fetch.resp ⟨200, []⟩) [1] (Fetch.thrown (S "TypeError: fetch failed"))
        ⟨[], 0⟩ fmtId =
      (opFailed (S "TypeError: fetch failed"), []) :=
  c10_failure_no_writes.2.2.1 ⟨200, []⟩ [1] (S "TypeError: fetch failed") ⟨[], 0⟩ fmtId
    rfl (by decide)

end AzMcp
